import Mathlib

/-!
Shallow embedding of the query-synthesis and chunked-batch-load core of
`neo4j_tools` (`gds_db_load.py` and `gds_utils.py`), together with theorems
checking the specification's claims against it.

Conventions used throughout:
* Python strings become `String`; literal braces of the generated Cypher text
  are written with the escapes `\x7b` and `\x7d`.
* A Python value passed where the code expects "a string or a tuple" is
  modelled by `PyVal`: `str` for strings, `tup` for tuples (whose elements are
  strings, the only element type the code is used with), and `other` for every
  non-string non-tuple value, which the code treats uniformly in its `else`
  branch.
* Python `raise` is modelled by `Except String`; an out-of-range tuple index
  (Python `IndexError`) is modelled by `pyIndex`.
* The loaders' observable behaviour (which chunks were submitted to the
  database, the running totals printed after each chunk, and the final
  cumulative count or the propagated error) is captured by `LoadResult`.
-/

/-- Values that may be passed to `_make_map`: a Python string, a Python tuple
(of strings, modelled as a list so tuples of every arity are representable),
or any other value. -/
inductive PyVal where
  | str (s : String)
  | tup (xs : List String)
  | other

/-- Embedding of `_make_map` (gds_db_load.py lines 7-13): a string `x` becomes
the pair `(x, x)` (here the two-element list `[x, x]`), a tuple is returned
unchanged whatever its arity, and anything else raises
`Exception("Entry must of type string or tuple")`. -/
def make_map : PyVal → Except String (List String)
  | .str s => .ok [s, s]
  | .tup xs => .ok xs
  | .other => .error "Entry must of type string or tuple"

/-- Python tuple indexing `xs[i]`, which raises `IndexError` when the index is
out of range. -/
def pyIndex (xs : List String) (i : Nat) : Except String String :=
  match xs[i]? with
  | some v => .ok v
  | none => .error "IndexError"

/-- Embedding of `_make_set_clause` (gds_db_load.py lines 16-20): one
`element.prop = item.prop` assignment per property name, comma-joined after
the keyword `SET`. -/
def make_set_clause (prop_names : List String) (element_name item_name : String) : String :=
  "SET " ++ String.intercalate ", "
    (prop_names.map (fun prop_name =>
      element_name ++ "." ++ prop_name ++ " = " ++ item_name ++ "." ++ prop_name))

/-- Embedding of `_make_node_merge_query` (gds_db_load.py lines 23-28). -/
def make_node_merge_query (node_key_name node_label : String) (cols : List String) : String :=
  let template := "UNWIND $recs AS rec\nMERGE(n:" ++ node_label ++ " \x7b" ++ node_key_name
    ++ ": rec." ++ node_key_name ++ "\x7d)"
  let prop_names := cols.filter (fun x => x != node_key_name)
  let template := if 0 < prop_names.length
    then template ++ "\n" ++ make_set_clause prop_names "n" "rec"
    else template
  template ++ "\nRETURN count(n) AS nodeLoadedCount"

/-- Embedding of the `merge_statement` local of `_make_rel_merge_query`
(gds_db_load.py lines 41-43): the default has no property filter, and a
supplied `rel_key` adds the filter `{rel_key: rec.rel_key}` to the
relationship pattern. -/
def rel_merge_statement (rel_type : String) (rel_key : Option String) : String :=
  match rel_key with
  | none => "MERGE(s)-[r:" ++ rel_type ++ "]->(t)"
  | some k => "MERGE(s)-[r:" ++ rel_type ++ " \x7b" ++ k ++ ": rec." ++ k ++ "\x7d]->(t)"

/-- Embedding of `_make_rel_merge_query` (gds_db_load.py lines 31-51).
The three `_make_map` calls happen, in source order, before any part of the
template is assembled; the tuple indexings `map[0]`/`map[1]` happen inside the
f-string.  The property list excludes `rel_key` and the two key *column*
names (`x not in [rel_key, source_node_key_map[1], target_node_key_map[1]]`;
a string column never equals the Python `None` that `rel_key` may hold). -/
def make_rel_merge_query (source_target_labels source_node_key target_node_key : PyVal)
    (rel_type : String) (cols : List String) (rel_key : Option String) :
    Except String String := do
  let source_target_label_map ← make_map source_target_labels
  let source_node_key_map ← make_map source_node_key
  let target_node_key_map ← make_map target_node_key
  let merge_statement := rel_merge_statement rel_type rel_key
  let stl0 ← pyIndex source_target_label_map 0
  let snk0 ← pyIndex source_node_key_map 0
  let snk1 ← pyIndex source_node_key_map 1
  let stl1 ← pyIndex source_target_label_map 1
  let tnk0 ← pyIndex target_node_key_map 0
  let tnk1 ← pyIndex target_node_key_map 1
  let template := "\tUNWIND $recs AS rec\n    MATCH(s:" ++ stl0 ++ " \x7b" ++ snk0
    ++ ": rec." ++ snk1 ++ "\x7d)\n    MATCH(t:" ++ stl1 ++ " \x7b" ++ tnk0
    ++ ": rec." ++ tnk1 ++ "\x7d)\n\t" ++ merge_statement
  let prop_names := cols.filter (fun x => !(rel_key == some x || x == snk1 || x == tnk1))
  let template := if 0 < prop_names.length
    then template ++ "\n\t" ++ make_set_clause prop_names "r" "rec"
    else template
  return template ++ "\n\tRETURN count(r) AS relLoadedCount"

/-- The list comprehension `[xs[i:i + n] for i in range(0, len(xs), n)]` of
`chunks` for an already-clamped positive size `m`: Python `range(0, len, m)`
is `[0, m, 2*m, ...]` with `⌈len/m⌉` elements, and the slice `xs[i:i+m]` is
`(xs.drop i).take m`. -/
def chunksOf (m : Nat) (xs : List α) : List (List α) :=
  (List.range' 0 ((xs.length + m - 1) / m) m).map (fun i => (xs.drop i).take m)

/-- Embedding of `chunks` (gds_db_load.py lines 54-64): the size is first
clamped by `n = max(1, n)`, then the list is sliced. -/
def chunks (xs : List α) (n : Int) : List (List α) :=
  chunksOf (max 1 n).toNat xs

/-- Outcome of running a loader: the chunks submitted to the execution
capability in order, the cumulative totals reported (printed) after each
successfully executed chunk, and either the final cumulative count or the
propagated execution error. -/
structure LoadResult (ε ρ : Type) where
  submitted : List (List ρ)
  reports : List Int
  outcome : Except ε Int

/-- The chunk loop shared by `load_nodes` (gds_db_load.py lines 91-95) and
`load_rels` (lines 145-149): `for recs in chunks(records, chunk_size):` run
the query on the chunk, add the scalar result to `cumulative_count`, print
the running total; an exception from the execution capability propagates,
aborting the loop (the failing chunk was submitted once, nothing after it
is submitted, and no retry happens). -/
def loadChunks (execute : List ρ → Except ε Int) (cumulative_count : Int) :
    List (List ρ) → LoadResult ε ρ
  | [] => ⟨[], [], .ok cumulative_count⟩
  | c :: cs =>
    match execute c with
    | .error e => ⟨[c], [], .error e⟩
    | .ok k =>
      let r := loadChunks execute (cumulative_count + k) cs
      ⟨c :: r.submitted, (cumulative_count + k) :: r.reports, r.outcome⟩

/-- Embedding of `load_nodes` (gds_db_load.py lines 67-95).  The dataframe is
abstracted into its record list and its column list; the database round-trip
`gds.run_cypher(query, params={'recs': recs}).iloc[0, 0]` is abstracted into
the injected capability `execute` taking the query text and one chunk and
returning the scalar count (or failing). -/
def load_nodes (execute : String → List ρ → Except ε Int) (records : List ρ)
    (node_key_col node_label : String) (cols : List String) (chunk_size : Int) :
    LoadResult ε ρ :=
  loadChunks (execute (make_node_merge_query node_key_col node_label cols)) 0
    (chunks records chunk_size)

/-- Embedding of `load_rels` (gds_db_load.py lines 98-149).  A mapping error
raised by `_make_rel_merge_query` propagates before any chunk is executed. -/
def load_rels (execute : String → List ρ → Except ε Int) (records : List ρ)
    (source_target_labels source_node_key target_node_key : PyVal)
    (rel_type : String) (cols : List String) (rel_key : Option String)
    (chunk_size : Int) : Except String (LoadResult ε ρ) :=
  match make_rel_merge_query source_target_labels source_node_key target_node_key
      rel_type cols rel_key with
  | .error e => .error e
  | .ok query => .ok (loadChunks (execute query) 0 (chunks records chunk_size))

/-- Embedding of the query string constructed by `delete_relationships`
(gds_utils.py lines 11-21); the `gds.run_cypher` call that executes it is
abstracted away.  Argument order follows the source (`rel_type`,
`batch_size`, `src_node_label`), skipping the session argument. -/
def delete_relationships (rel_type : String) (batch_size : Int)
    (src_node_label : Option String) : String :=
  let src_node_filter := match src_node_label with
    | none => ""
    | some l => ":" ++ l
  "\n        MATCH(" ++ src_node_filter ++ ")-[r:" ++ rel_type
    ++ "]->()\n        CALL \x7b\n            WITH r\n            DELETE r\n        \x7d IN TRANSACTIONS OF "
    ++ toString batch_size ++ " ROWS\n        "

/-- Embedding of the query string constructed by `delete_nodes`
(gds_utils.py lines 24-31). -/
def delete_nodes (node_label : String) (batch_size : Int) : String :=
  "\n        MATCH(n:" ++ node_label
    ++ ")\n        CALL \x7b\n            WITH n\n            DETACH DELETE n\n        \x7d IN TRANSACTIONS OF "
    ++ toString batch_size ++ " ROWS\n        "

/-- Recursive characterisation of chunking with chunk size `m + 1`, used to
reason about `chunksOf` by induction. -/
def chunksRec (m : Nat) : List α → List (List α)
  | [] => []
  | x :: xs => ((x :: xs).take (m + 1)) :: chunksRec m ((x :: xs).drop (m + 1))
  termination_by xs => xs.length
  decreasing_by simp [List.length_drop]; omega

/-- The running cumulative totals reported by the chunk loop when every chunk
`c` yields the scalar `f c`. -/
def runningTotals (f : List ρ → Int) (cumulative : Int) : List (List ρ) → List Int
  | [] => []
  | c :: cs => (cumulative + f c) :: runningTotals f (cumulative + f c) cs

lemma chunk_count_succ (m L : Nat) (hm : 0 < m) (hL : 0 < L) :
    (L + m - 1) / m = ((L - m) + m - 1) / m + 1 := by
  rcases Nat.le_total m L with h | h
  · have h1 : L + m - 1 = ((L - m) + m - 1) + m := by omega
    rw [h1, Nat.add_div_right _ hm]
  · have h1 : (L - m) + m - 1 = m - 1 := by omega
    have h2 : L + m - 1 = (L - 1) + m := by omega
    rw [h1, h2, Nat.add_div_right _ hm, Nat.div_eq_of_lt (by omega),
      Nat.div_eq_of_lt (by omega)]

lemma chunksOf_nil (m' : Nat) : chunksOf (m' + 1) ([] : List α) = [] := by
  simp [chunksOf, Nat.div_eq_of_lt (Nat.lt_succ_self m')]

lemma chunksOf_succ_eq (m' : Nat) :
    ∀ (fuel : Nat) (xs : List α), xs.length ≤ fuel →
      chunksOf (m' + 1) xs = chunksRec m' xs := by
  intro fuel
  induction fuel with
  | zero =>
    intro xs h
    have hx : xs = [] := List.eq_nil_of_length_eq_zero (Nat.le_zero.mp h)
    subst hx
    rw [chunksOf_nil, chunksRec]
  | succ f ih =>
    intro xs h
    match xs with
    | [] => rw [chunksOf_nil, chunksRec]
    | y :: ys =>
      have hL : 0 < (y :: ys).length := by simp
      have hk := chunk_count_succ (m' + 1) (y :: ys).length (Nat.succ_pos m') hL
      have hdroplen : ((y :: ys).drop (m' + 1)).length = (y :: ys).length - (m' + 1) := by
        simp [List.length_drop]
      rw [chunksOf, hk, List.range'_succ, List.map_cons]
      rw [chunksRec]
      refine congrArg₂ _ (by simp) ?_
      have hmap : List.range' (0 + (m' + 1))
            (((y :: ys).length - (m' + 1) + (m' + 1) - 1) / (m' + 1)) (m' + 1)
          = (List.range' 0 (((y :: ys).length - (m' + 1) + (m' + 1) - 1) / (m' + 1))
              (m' + 1)).map ((m' + 1) + ·) := by
        rw [Nat.add_comm 0 (m' + 1), List.map_add_range']
      rw [hmap, List.map_map]
      have hfun : ((fun i => ((y :: ys).drop i).take (m' + 1)) ∘ ((m' + 1) + ·))
          = (fun i => (((y :: ys).drop (m' + 1)).drop i).take (m' + 1)) := by
        funext i
        show ((y :: ys).drop (m' + 1 + i)).take (m' + 1)
          = (((y :: ys).drop (m' + 1)).drop i).take (m' + 1)
        rw [List.drop_drop]
      rw [hfun]
      have h5 := ih ((y :: ys).drop (m' + 1)) (by simp [List.length_drop] at h ⊢; omega)
      rw [chunksOf, hdroplen] at h5
      exact h5

lemma chunksRec_flatten (m' : Nat) :
    ∀ (fuel : Nat) (xs : List α), xs.length ≤ fuel → (chunksRec m' xs).flatten = xs := by
  intro fuel
  induction fuel with
  | zero =>
    intro xs h
    have hx : xs = [] := List.eq_nil_of_length_eq_zero (Nat.le_zero.mp h)
    subst hx
    rw [chunksRec]; rfl
  | succ f ih =>
    intro xs h
    match xs with
    | [] => rw [chunksRec]; rfl
    | y :: ys =>
      rw [chunksRec, List.flatten_cons,
        ih ((y :: ys).drop (m' + 1)) (by simp [List.length_drop] at h ⊢; omega),
        List.take_append_drop]

lemma chunksRec_mem_length (m' : Nat) :
    ∀ (fuel : Nat) (xs : List α) (c : List α), xs.length ≤ fuel →
      c ∈ chunksRec m' xs → 1 ≤ c.length ∧ c.length ≤ m' + 1 := by
  intro fuel
  induction fuel with
  | zero =>
    intro xs c h hc
    have hx : xs = [] := List.eq_nil_of_length_eq_zero (Nat.le_zero.mp h)
    subst hx
    rw [chunksRec] at hc
    exact absurd hc (List.not_mem_nil c)
  | succ f ih =>
    intro xs c h hc
    match xs with
    | [] =>
      rw [chunksRec] at hc
      exact absurd hc (List.not_mem_nil c)
    | y :: ys =>
      rw [chunksRec] at hc
      rcases List.mem_cons.mp hc with hc | hc
      · subst hc
        constructor
        · simp [List.length_take]
        · simp [List.length_take]
      · exact ih ((y :: ys).drop (m' + 1)) c (by simp [List.length_drop] at h ⊢; omega) hc

lemma chunksRec_dropLast_length (m' : Nat) :
    ∀ (fuel : Nat) (xs : List α) (c : List α), xs.length ≤ fuel →
      c ∈ (chunksRec m' xs).dropLast → c.length = m' + 1 := by
  intro fuel
  induction fuel with
  | zero =>
    intro xs c h hc
    have hx : xs = [] := List.eq_nil_of_length_eq_zero (Nat.le_zero.mp h)
    subst hx
    rw [chunksRec] at hc
    exact absurd hc (List.not_mem_nil c)
  | succ f ih =>
    intro xs c h hc
    match xs with
    | [] =>
      rw [chunksRec] at hc
      exact absurd hc (List.not_mem_nil c)
    | y :: ys =>
      rw [chunksRec] at hc
      by_cases hrest : chunksRec m' ((y :: ys).drop (m' + 1)) = []
      · rw [hrest] at hc
        exact absurd hc (List.not_mem_nil c)
      · rw [List.dropLast_cons_of_ne_nil hrest] at hc
        rcases List.mem_cons.mp hc with hc | hc
        · subst hc
          have hne : (y :: ys).drop (m' + 1) ≠ [] := by
            intro hnil
            exact hrest (by rw [hnil, chunksRec])
          have hlen : m' + 1 < (y :: ys).length := by
            by_contra hcon
            exact hne (List.drop_eq_nil_of_le (by omega))
          simp only [List.length_cons] at hlen
          simp [List.length_take]
          omega
        · exact ih ((y :: ys).drop (m' + 1)) c (by simp [List.length_drop] at h ⊢; omega) hc

lemma max_one_toNat_pos (n : Int) : 1 ≤ (max 1 n).toNat := by
  have h1 : (1 : Int) ≤ max 1 n := le_max_left 1 n
  omega

lemma chunks_eq_chunksRec (xs : List α) (n : Int) :
    chunks xs n = chunksRec ((max 1 n).toNat - 1) xs := by
  have hm := max_one_toNat_pos n
  have h2 : (max 1 n).toNat - 1 + 1 = (max 1 n).toNat := by omega
  have h3 := chunksOf_succ_eq ((max 1 n).toNat - 1) xs.length xs le_rfl
  rw [h2] at h3
  exact h3

/-- Claim C2: for every list `xs` and every integer `n`, a non-positive `n`
behaves exactly like `n = 1` (the source clamps with `n = max(1, n)`); for
positive `n` the chunk lengths sum to `len(xs)`, every chunk except the last
has length exactly `n`, and the last chunk (when one exists) has length
between 1 and `n`; and chunking the empty list yields the empty list, with no
error, division by zero, or non-termination. -/
theorem chunks_clamping_and_size_bounds (xs : List α) (n : Int) :
    (n ≤ 0 → chunks xs n = chunks xs 1)
  ∧ (0 < n →
      ((chunks xs n).map List.length).sum = xs.length
      ∧ (∀ c ∈ (chunks xs n).dropLast, c.length = n.toNat)
      ∧ (∀ c, (chunks xs n).getLast? = some c → 1 ≤ c.length ∧ c.length ≤ n.toNat))
  ∧ chunks ([] : List α) n = [] := by
  refine ⟨?_, ?_, ?_⟩
  · intro hn
    have h1 : max 1 n = 1 := max_eq_left (by omega)
    unfold chunks
    rw [h1, max_self]
  · intro hn
    have hmax : (max 1 n).toNat = n.toNat := by
      have h : max 1 n = n := max_eq_right (by omega)
      rw [h]
    have hm := max_one_toNat_pos n
    refine ⟨?_, ?_, ?_⟩
    · rw [← List.length_flatten, chunks_eq_chunksRec,
        chunksRec_flatten _ xs.length xs le_rfl]
    · intro c hc
      rw [chunks_eq_chunksRec] at hc
      have h := chunksRec_dropLast_length ((max 1 n).toNat - 1) xs.length xs c le_rfl hc
      omega
    · intro c hc
      rw [chunks_eq_chunksRec] at hc
      have hmem := List.mem_of_getLast?_eq_some hc
      have h := chunksRec_mem_length ((max 1 n).toNat - 1) xs.length xs c le_rfl hmem
      omega
  · rw [chunks_eq_chunksRec, chunksRec]

/-- Witness for claim C2's theorem: `chunks [0,1,2]` with the non-positive
size `-3` equals the size-`1` chunking, and with size `2` the chunk lengths
sum to 3, the non-final chunk `[0,1]` has length exactly 2, and the final
chunk `[2]` has length between 1 and 2. -/
theorem chunks_clamping_and_size_bounds_witness :
    chunks [0, 1, 2] (-3 : Int) = chunks [0, 1, 2] (1 : Int)
  ∧ ((chunks [0, 1, 2] (2 : Int)).map List.length).sum = 3
  ∧ ([0, 1] : List Nat).length = (2 : Int).toNat
  ∧ (1 ≤ ([2] : List Nat).length ∧ ([2] : List Nat).length ≤ (2 : Int).toNat) := by
  refine ⟨(chunks_clamping_and_size_bounds [0, 1, 2] (-3 : Int)).1 (by decide), ?_, ?_, ?_⟩
  · exact ((chunks_clamping_and_size_bounds [0, 1, 2] (2 : Int)).2.1 (by decide)).1
  · exact ((chunks_clamping_and_size_bounds [0, 1, 2] (2 : Int)).2.1 (by decide)).2.1
      [0, 1] (by decide)
  · exact ((chunks_clamping_and_size_bounds [0, 1, 2] (2 : Int)).2.1 (by decide)).2.2
      [2] (by decide)

/-- Claim C10: for every list `xs` and every integer `n`, concatenating the
chunks of `chunks xs n` in order gives back `xs`: chunking is a contiguous,
order-preserving partition that neither drops, duplicates, nor reorders any
record. -/
theorem chunks_flatten_eq_self (xs : List α) (n : Int) : (chunks xs n).flatten = xs := by
  rw [chunks_eq_chunksRec]
  exact chunksRec_flatten _ xs.length xs le_rfl

lemma loadChunks_all_ok (execute : List ρ → Except ε Int) (f : List ρ → Int) :
    ∀ (cs : List (List ρ)) (cum : Int), (∀ c ∈ cs, execute c = .ok (f c)) →
      loadChunks execute cum cs
        = ⟨cs, runningTotals f cum cs, .ok (cum + (cs.map f).sum)⟩ := by
  intro cs
  induction cs with
  | nil => intro cum h; simp [loadChunks, runningTotals]
  | cons c cs ih =>
    intro cum h
    have hc := h c (List.mem_cons_self c cs)
    have ihh := ih (cum + f c) (fun c' h' => h c' (List.mem_cons_of_mem c h'))
    simp [loadChunks, hc, ihh, runningTotals, add_assoc]

lemma loadChunks_first_error (execute : List ρ → Except ε Int) (f : List ρ → Int)
    (e : ε) (c : List ρ) (hc : execute c = .error e) :
    ∀ (cs₁ cs₂ : List (List ρ)) (cum : Int), (∀ c' ∈ cs₁, execute c' = .ok (f c')) →
      loadChunks execute cum (cs₁ ++ c :: cs₂)
        = ⟨cs₁ ++ [c], runningTotals f cum cs₁, .error e⟩ := by
  intro cs₁
  induction cs₁ with
  | nil =>
    intro cs₂ cum h
    rw [List.nil_append]
    simp [loadChunks, hc, runningTotals]
  | cons a cs₁ ih =>
    intro cs₂ cum h
    have ha := h a (List.mem_cons_self a cs₁)
    have ihh := ih cs₂ (cum + f a) (fun c' h' => h c' (List.mem_cons_of_mem a h'))
    rw [List.cons_append]
    simp [loadChunks, ha, ihh, runningTotals]

/-- Counterexample to claim C1 as stated: the final cumulative count is *not*
independent of the chunk size.  With the stub execution capability that
returns the fixed value 1 for every chunk, loading the two records `[0, 1]`
reports a final count of 2 with chunk size 1 but of 1 with chunk size 2. -/
theorem loader_count_depends_on_chunk_size :
    (load_nodes (fun _ _ => (Except.ok 1 : Except Unit Int)) [0, 1]
        "id" "Person" ["id"] 1).outcome
      ≠ (load_nodes (fun _ _ => (Except.ok 1 : Except Unit Int)) [0, 1]
        "id" "Person" ["id"] 2).outcome := by
  intro h
  have h' : (Except.ok (2 : Int) : Except Unit Int) = Except.ok (1 : Int) := h
  have h2 := Except.ok.inj h'
  omega

/-- Claim C1, amended: for every record sequence, every chunk size and every
execution capability that returns a scalar for each chunk (modelled as
`Except.ok (f query chunk)` for an arbitrary total stub `f`), the final
cumulative count reported by `load_nodes` — and likewise by `load_rels` once
query synthesis succeeds — equals the sum of the per-chunk scalar counts; the
equality holds for every chunk size (the value itself may depend on the
chunking). -/
theorem loader_count_eq_sum_of_chunk_counts (ε ρ : Type) (f : String → List ρ → Int)
    (records records₂ : List ρ) (node_key_col node_label : String)
    (cols cols₂ : List String) (chunk_size chunk_size₂ : Int)
    (source_target_labels source_node_key target_node_key : PyVal)
    (rel_type : String) (rel_key : Option String) (q : String) :
    ((load_nodes (fun qu c => (Except.ok (f qu c) : Except ε Int)) records
        node_key_col node_label cols chunk_size).outcome
      = Except.ok (((chunks records chunk_size).map
          (f (make_node_merge_query node_key_col node_label cols))).sum))
  ∧ (make_rel_merge_query source_target_labels source_node_key target_node_key
        rel_type cols₂ rel_key = Except.ok q →
      load_rels (fun qu c => (Except.ok (f qu c) : Except ε Int)) records₂
          source_target_labels source_node_key target_node_key rel_type cols₂ rel_key
          chunk_size₂
        = Except.ok ⟨chunks records₂ chunk_size₂,
            runningTotals (f q) 0 (chunks records₂ chunk_size₂),
            Except.ok (((chunks records₂ chunk_size₂).map (f q)).sum)⟩) := by
  constructor
  · rw [load_nodes, loadChunks_all_ok _
      (f (make_node_merge_query node_key_col node_label cols)) _ 0 (fun c _ => rfl)]
    simp
  · intro hq
    rw [load_rels, hq]
    have h0 := loadChunks_all_ok (fun c => (Except.ok (f q c) : Except ε Int)) (f q)
      (chunks records₂ chunk_size₂) 0 (fun c _ => rfl)
    simp [h0]

/-- Witness for claim C1's amended theorem: a stub returning the chunk length
on the three records `[0, 1, 2]` with chunk size 2 yields a final count of 3
from `load_nodes`, and from `load_rels` the trace with chunks
`[[0, 1], [2]]`, running totals `[2, 3]` and final count 3. -/
theorem loader_count_eq_sum_of_chunk_counts_witness :
    ((load_nodes (fun _ c => (Except.ok (c.length : Int) : Except Unit Int)) [0, 1, 2]
        "id" "Person" ["id"] 2).outcome = Except.ok 3)
  ∧ (load_rels (fun _ c => (Except.ok (c.length : Int) : Except Unit Int)) [0, 1, 2]
        (.str "Person") (.str "id") (.str "id") "KNOWS" ["id"] none 2
      = Except.ok ⟨[[0, 1], [2]], [2, 3], Except.ok 3⟩) := by
  refine ⟨(loader_count_eq_sum_of_chunk_counts Unit Nat (fun _ c => (c.length : Int))
    [0, 1, 2] [0, 1, 2] "id" "Person" ["id"] ["id"] 2 2
    (.str "Person") (.str "id") (.str "id") "KNOWS" none "").1, ?_⟩
  exact (loader_count_eq_sum_of_chunk_counts Unit Nat (fun _ c => (c.length : Int))
    [0, 1, 2] [0, 1, 2] "id" "Person" ["id"] ["id"] 2 2
    (.str "Person") (.str "id") (.str "id") "KNOWS" none _).2 rfl

/-- Claim C7: the Loader submits the chunks strictly sequentially in input
order, each exactly once, and reports the running cumulative total after
every chunk; when every execution succeeds the trace is exactly the chunk
list with its running totals, and when executing some chunk fails the error
propagates, the failing chunk is submitted once and not retried, no later
chunk is submitted, and the chunks before it remain submitted with their
totals reported. -/
theorem load_nodes_sequential_trace (ε ρ : Type) (execute : String → List ρ → Except ε Int)
    (f : List ρ → Int) (e : ε) (records : List ρ) (node_key_col node_label : String)
    (cols : List String) (chunk_size : Int) (cs₁ cs₂ : List (List ρ)) (c : List ρ) :
    ((∀ c' ∈ chunks records chunk_size,
        execute (make_node_merge_query node_key_col node_label cols) c' = .ok (f c')) →
      load_nodes execute records node_key_col node_label cols chunk_size
        = ⟨chunks records chunk_size,
           runningTotals f 0 (chunks records chunk_size),
           .ok (((chunks records chunk_size).map f).sum)⟩)
  ∧ (chunks records chunk_size = cs₁ ++ c :: cs₂ →
      (∀ c' ∈ cs₁,
        execute (make_node_merge_query node_key_col node_label cols) c' = .ok (f c')) →
      execute (make_node_merge_query node_key_col node_label cols) c = .error e →
      load_nodes execute records node_key_col node_label cols chunk_size
        = ⟨cs₁ ++ [c], runningTotals f 0 cs₁, .error e⟩) := by
  constructor
  · intro h
    rw [load_nodes]
    have h0 := loadChunks_all_ok
      (execute (make_node_merge_query node_key_col node_label cols)) f
      (chunks records chunk_size) 0 h
    simpa using h0
  · intro hsplit hok herr
    rw [load_nodes, hsplit]
    exact loadChunks_first_error _ f e c herr cs₁ cs₂ 0 hok

/-- Witness for claim C7's theorem: with chunk size 1 on records
`[0, 1, 2, 3]` and a capability that fails on the chunk `[2]`, the loader
submits exactly `[[0], [1], [2]]` (the chunks before the failure plus the
failing chunk, and nothing after), reports the running totals `[1, 2]`, and
propagates the error. -/
theorem load_nodes_sequential_trace_witness :
    load_nodes
        (fun _ ch => match ch with
          | [2] => (Except.error "boom" : Except String Int)
          | ch' => Except.ok (ch'.length : Int))
        [0, 1, 2, 3] "id" "Person" ["id"] 1
      = ⟨[[0], [1], [2]], [1, 2], Except.error "boom"⟩ := by
  have h := (load_nodes_sequential_trace String Nat
    (fun _ ch => match ch with
      | [2] => (Except.error "boom" : Except String Int)
      | ch' => Except.ok (ch'.length : Int))
    (fun ch => (ch.length : Int)) "boom" [0, 1, 2, 3] "id" "Person" ["id"] 1
    [[0], [1]] [[3]] [2]).2 rfl ?hok rfl
  · exact h
  · intro c' hc'
    rcases List.mem_cons.mp hc' with h1 | h1
    · subst h1; rfl
    · rcases List.mem_cons.mp h1 with h2 | h2
      · subst h2; rfl
      · exact absurd h2 (List.not_mem_nil c')


/-- Claim C3: for every key column, label and column set, when the set of
non-key columns (in column order) is non-empty the generated node-upsert
query is exactly the UNWIND and MERGE lines followed by a single SET clause
with one `n.prop = rec.prop` assignment per non-key column, comma-joined in
column order and referencing the record alias `rec`, and the final
`RETURN count(n) AS nodeLoadedCount` line; when it is empty the query has no
SET clause and consists of the UNWIND, MERGE and RETURN lines only. -/
theorem node_merge_query_set_clause (node_key_name node_label : String) (cols : List String) :
    (cols.filter (fun x => x != node_key_name) ≠ [] →
      make_node_merge_query node_key_name node_label cols
        = "UNWIND $recs AS rec\nMERGE(n:" ++ node_label ++ " \x7b" ++ node_key_name
          ++ ": rec." ++ node_key_name ++ "\x7d)\nSET "
          ++ String.intercalate ", " ((cols.filter (fun x => x != node_key_name)).map
              (fun p => "n." ++ p ++ " = rec." ++ p))
          ++ "\nRETURN count(n) AS nodeLoadedCount")
  ∧ (cols.filter (fun x => x != node_key_name) = [] →
      make_node_merge_query node_key_name node_label cols
        = "UNWIND $recs AS rec\nMERGE(n:" ++ node_label ++ " \x7b" ++ node_key_name
          ++ ": rec." ++ node_key_name ++ "\x7d)\nRETURN count(n) AS nodeLoadedCount") := by
  constructor
  · intro h
    have hlen : 0 < (cols.filter (fun x => x != node_key_name)).length :=
      List.length_pos.mpr h
    rw [make_node_merge_query, make_set_clause]
    simp only [if_pos hlen]
    have hfun : (fun p => "n" ++ "." ++ p ++ " = " ++ "rec" ++ "." ++ p)
        = (fun p : String => "n." ++ p ++ " = rec." ++ p) := by
      funext p
      apply String.ext
      simp only [String.data_append, List.append_assoc]
      rfl
    rw [hfun]
    apply String.ext
    simp only [String.data_append, List.append_assoc]
    rfl
  · intro h
    rw [make_node_merge_query]
    simp only [h]
    rw [if_neg (by simp)]
    apply String.ext
    simp only [String.data_append, List.append_assoc]
    rfl

/-- Evaluation of `make_rel_merge_query` on pair-shaped label and key
arguments: normalization and tuple indexing succeed and the body of the
source function remains. -/
lemma make_rel_merge_query_tup_eval (sl tl sp sc tp tc rel_type : String)
    (cols : List String) (rel_key : Option String) :
    make_rel_merge_query (.tup [sl, tl]) (.tup [sp, sc]) (.tup [tp, tc]) rel_type cols rel_key
      = Except.ok (
        let template := "\tUNWIND $recs AS rec\n    MATCH(s:" ++ sl ++ " \x7b" ++ sp
          ++ ": rec." ++ sc ++ "\x7d)\n    MATCH(t:" ++ tl ++ " \x7b" ++ tp ++ ": rec."
          ++ tc ++ "\x7d)\n\t" ++ rel_merge_statement rel_type rel_key
        let prop_names := cols.filter (fun x => !(rel_key == some x || x == sc || x == tc))
        let template := if 0 < prop_names.length
          then template ++ "\n\t" ++ make_set_clause prop_names "r" "rec"
          else template
        template ++ "\n\tRETURN count(r) AS relLoadedCount") := rfl

/-- A single-string label or key behaves exactly like the duplicated pair,
by definition of `_make_map`. -/
lemma make_rel_merge_query_str_eval (lab sk tk rel_type : String)
    (cols : List String) (rel_key : Option String) :
    make_rel_merge_query (.str lab) (.str sk) (.str tk) rel_type cols rel_key
      = make_rel_merge_query (.tup [lab, lab]) (.tup [sk, sk]) (.tup [tk, tk])
          rel_type cols rel_key := rfl

/-- Claim C4: for every relationship load specification (pair form and
single-string form), the generated relationship-upsert query consists of the
UNWIND line, two MATCH clauses locating source and target endpoints by label
plus key property (no MERGE for the endpoints — the only MERGE is the
relationship `merge_statement`), then a SET clause assigning exactly the
columns excluding the source key column, the target key column and the
disambiguation key as relationship properties (omitted when that set is
empty), and the RETURN line. -/
theorem rel_merge_query_structure (sl tl sp sc tp tc lab sk tk rel_type : String)
    (cols : List String) (rel_key : Option String) :
    (make_rel_merge_query (.tup [sl, tl]) (.tup [sp, sc]) (.tup [tp, tc]) rel_type cols rel_key
      = Except.ok ("\tUNWIND $recs AS rec\n    MATCH(s:" ++ sl ++ " \x7b" ++ sp ++ ": rec." ++ sc
        ++ "\x7d)\n    MATCH(t:" ++ tl ++ " \x7b" ++ tp ++ ": rec." ++ tc
        ++ "\x7d)\n\t" ++ rel_merge_statement rel_type rel_key
        ++ (if 0 < (cols.filter (fun x => !(rel_key == some x || x == sc || x == tc))).length
            then "\n\tSET " ++ String.intercalate ", "
              ((cols.filter (fun x => !(rel_key == some x || x == sc || x == tc))).map
                (fun p => "r." ++ p ++ " = rec." ++ p))
            else "")
        ++ "\n\tRETURN count(r) AS relLoadedCount"))
  ∧ (make_rel_merge_query (.str lab) (.str sk) (.str tk) rel_type cols rel_key
      = Except.ok ("\tUNWIND $recs AS rec\n    MATCH(s:" ++ lab ++ " \x7b" ++ sk ++ ": rec." ++ sk
        ++ "\x7d)\n    MATCH(t:" ++ lab ++ " \x7b" ++ tk ++ ": rec." ++ tk
        ++ "\x7d)\n\t" ++ rel_merge_statement rel_type rel_key
        ++ (if 0 < (cols.filter (fun x => !(rel_key == some x || x == sk || x == tk))).length
            then "\n\tSET " ++ String.intercalate ", "
              ((cols.filter (fun x => !(rel_key == some x || x == sk || x == tk))).map
                (fun p => "r." ++ p ++ " = rec." ++ p))
            else "")
        ++ "\n\tRETURN count(r) AS relLoadedCount")) := by
  have hfun : (fun p => "r" ++ "." ++ p ++ " = " ++ "rec" ++ "." ++ p)
      = (fun p : String => "r." ++ p ++ " = rec." ++ p) := by
    funext p
    apply String.ext
    simp only [String.data_append, List.append_assoc]
    rfl
  constructor
  · rw [make_rel_merge_query_tup_eval]
    simp only
    by_cases hcond : 0 < (cols.filter
        (fun x => !(rel_key == some x || x == sc || x == tc))).length
    · rw [if_pos hcond, if_pos hcond, make_set_clause, hfun]
      refine congrArg Except.ok ?_
      apply String.ext
      simp only [String.data_append, List.append_assoc]
      rfl
    · rw [if_neg hcond, if_neg hcond]
      refine congrArg Except.ok ?_
      apply String.ext
      simp only [String.data_append, List.append_assoc, List.append_nil]
  · rw [make_rel_merge_query_str_eval, make_rel_merge_query_tup_eval]
    simp only
    by_cases hcond : 0 < (cols.filter
        (fun x => !(rel_key == some x || x == sk || x == tk))).length
    · rw [if_pos hcond, if_pos hcond, make_set_clause, hfun]
      refine congrArg Except.ok ?_
      apply String.ext
      simp only [String.data_append, List.append_assoc]
      rfl
    · rw [if_neg hcond, if_neg hcond]
      refine congrArg Except.ok ?_
      apply String.ext
      simp only [String.data_append, List.append_assoc, List.append_nil]

/-- Claim C5: passing a relationship key as the single name `"id"` and as
the pair `("id", "id")` produces character-for-character identical generated
queries (in both the source and the target key position, for every choice of
the other arguments); and passing `("personId", "id")` produces a query whose
source MATCH clause matches `rec.id` against the `personId` property:
`MATCH(s:<label> {personId: rec.id})`. -/
theorem rel_key_normalization_queries (source_target_labels source_node_key target_node_key : PyVal)
    (sl tl tp tc rel_type : String) (cols : List String) (rel_key : Option String) :
    (make_rel_merge_query source_target_labels (.str "id") target_node_key rel_type cols rel_key
      = make_rel_merge_query source_target_labels (.tup ["id", "id"]) target_node_key
          rel_type cols rel_key)
  ∧ (make_rel_merge_query source_target_labels source_node_key (.str "id") rel_type cols rel_key
      = make_rel_merge_query source_target_labels source_node_key (.tup ["id", "id"])
          rel_type cols rel_key)
  ∧ (make_rel_merge_query (.tup [sl, tl]) (.tup ["personId", "id"]) (.tup [tp, tc])
        rel_type cols rel_key
      = Except.ok ("\tUNWIND $recs AS rec\n    MATCH(s:" ++ sl
        ++ " \x7bpersonId: rec.id\x7d)\n    MATCH(t:" ++ tl ++ " \x7b" ++ tp ++ ": rec." ++ tc
        ++ "\x7d)\n\t" ++ rel_merge_statement rel_type rel_key
        ++ (if 0 < (cols.filter (fun x => !(rel_key == some x || x == "id" || x == tc))).length
            then "\n\tSET " ++ String.intercalate ", "
              ((cols.filter (fun x => !(rel_key == some x || x == "id" || x == tc))).map
                (fun p => "r." ++ p ++ " = rec." ++ p))
            else "")
        ++ "\n\tRETURN count(r) AS relLoadedCount")) := by
  have hfun : (fun p => "r" ++ "." ++ p ++ " = " ++ "rec" ++ "." ++ p)
      = (fun p : String => "r." ++ p ++ " = rec." ++ p) := by
    funext p
    apply String.ext
    simp only [String.data_append, List.append_assoc]
    rfl
  refine ⟨rfl, rfl, ?_⟩
  rw [make_rel_merge_query_tup_eval]
  simp only
  by_cases hcond : 0 < (cols.filter
      (fun x => !(rel_key == some x || x == "id" || x == tc))).length
  · rw [if_pos hcond, if_pos hcond, make_set_clause, hfun]
    refine congrArg Except.ok ?_
    apply String.ext
    simp only [String.data_append, List.append_assoc]
    rfl
  · rw [if_neg hcond, if_neg hcond]
    refine congrArg Except.ok ?_
    apply String.ext
    simp only [String.data_append, List.append_assoc, List.append_nil]
    rfl

/-- Claim C8: for every relationship type and disambiguation key, the MERGE
clause of the generated query embeds the property filter `{k: rec.k}` when
the key `k` is supplied and is `MERGE(s)-[r:<type>]->(t)` with no property
filter when it is absent; concretely, relType `KNOWS` with `rel_key="since"`
yields `MERGE(s)-[r:KNOWS {since: rec.since}]->(t)` inside the full query,
and without the key the MERGE has no filter. -/
theorem rel_merge_disambiguation_key (rel_type k : String) :
    (rel_merge_statement rel_type (some k)
      = "MERGE(s)-[r:" ++ rel_type ++ " \x7b" ++ k ++ ": rec." ++ k ++ "\x7d]->(t)")
  ∧ (rel_merge_statement rel_type none = "MERGE(s)-[r:" ++ rel_type ++ "]->(t)")
  ∧ (make_rel_merge_query (.str "Person") (.str "personId") (.str "personId")
        "KNOWS" ["personId", "since"] (some "since")
      = Except.ok "\tUNWIND $recs AS rec\n    MATCH(s:Person \x7bpersonId: rec.personId\x7d)\n    MATCH(t:Person \x7bpersonId: rec.personId\x7d)\n\tMERGE(s)-[r:KNOWS \x7bsince: rec.since\x7d]->(t)\n\tRETURN count(r) AS relLoadedCount")
  ∧ (make_rel_merge_query (.str "Person") (.str "personId") (.str "personId")
        "KNOWS" ["personId", "since"] none
      = Except.ok "\tUNWIND $recs AS rec\n    MATCH(s:Person \x7bpersonId: rec.personId\x7d)\n    MATCH(t:Person \x7bpersonId: rec.personId\x7d)\n\tMERGE(s)-[r:KNOWS]->(t)\n\tSET r.since = rec.since\n\tRETURN count(r) AS relLoadedCount") :=
  ⟨rfl, rfl, rfl, rfl⟩

/-- Counterexample to claim C6 as stated: the tuple `("a", "b", "c")` is
neither a string nor a valid (propertyName, columnName) pair, yet `_make_map`
does not fail — it returns the triple unchanged, because the source only
checks `type(x) == tuple`. -/
theorem make_map_accepts_non_pair_tuple :
    make_map (.tup ["a", "b", "c"]) = Except.ok ["a", "b", "c"]
  ∧ (["a", "b", "c"] : List String).length ≠ 2 :=
  ⟨rfl, by decide⟩

/-- Claim C6, amended: a string is normalized to the duplicated pair and a
tuple of any arity — including non-pair tuples — is accepted and returned
as-is; only an input that is neither a string nor a tuple makes the
synthesizer fail, with the mapping error (the source raises
`Exception("Entry must of type string or tuple")`), and that failure
propagates out of query construction before any template is built. -/
theorem make_map_normalization_behavior :
    (∀ s, make_map (.str s) = Except.ok [s, s])
  ∧ (∀ xs, make_map (.tup xs) = Except.ok xs)
  ∧ make_map .other = Except.error "Entry must of type string or tuple"
  ∧ (∀ snk tnk rel_type cols rel_key,
      make_rel_merge_query .other snk tnk rel_type cols rel_key
        = Except.error "Entry must of type string or tuple")
  ∧ (∀ stl tnk rel_type cols rel_key,
      make_rel_merge_query stl .other tnk rel_type cols rel_key
        = Except.error "Entry must of type string or tuple") := by
  refine ⟨fun s => rfl, fun xs => rfl, rfl, fun snk tnk rel_type cols rel_key => rfl, ?_⟩
  intro stl tnk rel_type cols rel_key
  cases stl with
  | str s => rfl
  | tup xs => rfl
  | other => rfl

/-- Claim C9: for every relationship type, label filter, node label and
batch size, the delete utilities build a single statement whose batching
clause is `CALL { ... } IN TRANSACTIONS OF <batchSize> ROWS`;
`delete_relationships` constrains the source node of the matched pattern by
`:<label>` exactly when the optional source label filter is supplied and
leaves `MATCH()` unconstrained when it is absent, and `delete_nodes`
performs a batched `DETACH DELETE` of nodes of the given label. -/
theorem delete_queries_structure (rel_type node_label lbl : String) (batch_size : Int) :
    (delete_relationships rel_type batch_size (some lbl)
      = "\n        MATCH(:" ++ lbl ++ ")-[r:" ++ rel_type
        ++ "]->()\n        CALL \x7b\n            WITH r\n            DELETE r\n        \x7d IN TRANSACTIONS OF "
        ++ toString batch_size ++ " ROWS\n        ")
  ∧ (delete_relationships rel_type batch_size none
      = "\n        MATCH()-[r:" ++ rel_type
        ++ "]->()\n        CALL \x7b\n            WITH r\n            DELETE r\n        \x7d IN TRANSACTIONS OF "
        ++ toString batch_size ++ " ROWS\n        ")
  ∧ (delete_nodes node_label batch_size
      = "\n        MATCH(n:" ++ node_label
        ++ ")\n        CALL \x7b\n            WITH n\n            DETACH DELETE n\n        \x7d IN TRANSACTIONS OF "
        ++ toString batch_size ++ " ROWS\n        ") := by
  refine ⟨?_, ?_, ?_⟩
  · simp only [delete_relationships]
    apply String.ext
    simp only [String.data_append, List.append_assoc]
    rfl
  · simp only [delete_relationships]
    apply String.ext
    simp only [String.data_append, List.append_assoc]
    rfl
  · simp only [delete_nodes]

/-- Witness for claim C3's theorem: concrete queries for key `id`, label
`Person`, with columns `[id, name, age]` (two SET assignments) and `[id]`
(no SET clause). -/
theorem node_merge_query_set_clause_witness :
    make_node_merge_query "id" "Person" ["id", "name", "age"]
      = "UNWIND $recs AS rec\nMERGE(n:Person \x7bid: rec.id\x7d)\nSET n.name = rec.name, n.age = rec.age\nRETURN count(n) AS nodeLoadedCount"
  ∧ make_node_merge_query "id" "Person" ["id"]
      = "UNWIND $recs AS rec\nMERGE(n:Person \x7bid: rec.id\x7d)\nRETURN count(n) AS nodeLoadedCount" := by
  constructor
  · rw [(node_merge_query_set_clause "id" "Person" ["id", "name", "age"]).1 (by decide)]
    rfl
  · rw [(node_merge_query_set_clause "id" "Person" ["id"]).2 (by decide)]
    rfl
